import Mathlib

/-!
# Verification of the Dash_Vendas sales dashboard (`src/app.py`)

A shallow embedding of the data pipeline of `app.py`:

* the Normalizer (full-name derivation, date parsing to nullable dates),
* the Joiner (three successive left merges plus derived columns
  `Ano` and `Valor da Venda`),
* the Filter Index (`filtros`, and the brand cascade `atualizar_marcas`),
* the Query Engine (the five sequential boolean-mask filters at the top
  of `atualizar_graficos`),
* the six Aggregators feeding the six charts,
* the layout of the two `Dash` app objects the module constructs, and
* a heap model of the callback pass, capturing that `atualizar_graficos`
  works on `df_total.copy()` and that its in-place column writes
  (re-coercing `Data da Venda`, adding `Mês`) hit the copy, not the base.

Pandas conventions modelled explicitly:

* missing values are `Option.none`; `x == v` on a frame column is `False`
  on a missing value, as is `isin`;
* `groupby(k)` drops rows whose key is missing and sorts the group keys
  ascending; `.sum()` treats a missing measure as `0`;
* `Series.nlargest(10)` is a stable descending sort by value followed by
  `take 10` (ties keep first-encountered order, `keep='first'`);
* `astype(str)` on a missing first/last name produces the literal string
  `"nan"`, and on a missing monthly period the literal string `"NaT"`;
* `.unique()` keeps first occurrences in encounter order.
-/

namespace DashVendas

/-- A parsed sale date (`Data da Venda` after `pd.to_datetime`): the
fields the dashboard reads are the year and the month. -/
structure SaleDate where
  year : Int
  month : Nat
  deriving DecidableEq, Repr

/-- A row of the standardized sales table `df_vendas`
(columns forced to `colunas_vendas`); the date is `none` when
`pd.to_datetime(..., errors='coerce')` failed to parse it. -/
structure Venda where
  dataVenda : Option SaleDate
  ordemCompra : Int
  idProduto : Int
  idCliente : Int
  qtdVendida : Option Int
  idLoja : Int
  deriving DecidableEq, Repr

/-- A raw row of `Cadastro Clientes.xlsx` in the separate
first/last-name schema handled by the `'Primeiro Nome' in columns`
branch. -/
structure ClienteRaw where
  idCliente : Int
  primeiroNome : Option String
  sobrenome : Option String
  deriving DecidableEq, Repr

/-- A customer row after normalization: only `ID Cliente` and the
derived `Nome Completo` remain relevant to the dashboard. -/
structure Cliente where
  idCliente : Int
  nomeCompleto : Option String
  deriving DecidableEq, Repr

/-- A row of `Cadastro Produtos.xlsx` after the `SKU → ID Produto`
rename. -/
structure Produto where
  idProduto : Int
  produto : Option String
  tipoProduto : Option String
  marca : Option String
  precoUnitario : Option Int
  deriving DecidableEq, Repr

/-- A row of `Cadastro Lojas.xlsx`. -/
structure Loja where
  idLoja : Int
  nomeLoja : Option String
  deriving DecidableEq, Repr

/-- A row of the denormalized fact table `df_total`: the sales columns,
the reference columns brought in by the three left merges (each `none`
when its key found no match), and the derived columns `Ano` and
`Valor da Venda`. -/
structure FactRow where
  dataVenda : Option SaleDate
  ordemCompra : Int
  idProduto : Int
  idCliente : Int
  qtdVendida : Option Int
  idLoja : Int
  nomeCompleto : Option String
  produto : Option String
  tipoProduto : Option String
  marca : Option String
  precoUnitario : Option Int
  nomeLoja : Option String
  ano : Option Int
  valorVenda : Option Int
  deriving DecidableEq, Repr

/-! ## Generic list machinery: `unique()`, stable sorting, group-by -/

/-- `Series.unique()` worker: distinct values in first-encounter order,
skipping values already in `seen`. -/
def dedupFirstAux [DecidableEq κ] (seen : List κ) : List κ → List κ
  | [] => []
  | x :: xs =>
    if x ∈ seen then dedupFirstAux seen xs
    else x :: dedupFirstAux (x :: seen) xs

/-- `Series.unique()`: distinct values in first-encounter order. -/
def dedupFirst [DecidableEq κ] (l : List κ) : List κ :=
  dedupFirstAux [] l

/-- Stable insertion into a list ordered by the boolean relation `r`
(`r a b` = "`a` may come before `b`"). -/
def insertR (r : κ → κ → Bool) (x : κ) : List κ → List κ
  | [] => [x]
  | y :: ys => if r x y then x :: y :: ys else y :: insertR r x ys

/-- Stable insertion sort by the boolean relation `r`: Python's
`sorted` (ascending `r`) and, with the flipped value order, the sort
inside `Series.nlargest`. -/
def sortR (r : κ → κ → Bool) : List κ → List κ
  | [] => []
  | x :: xs => insertR r x (sortR r xs)

theorem mem_insertR (r : κ → κ → Bool) (x : κ) (l : List κ) (a : κ) :
    a ∈ insertR r x l ↔ a = x ∨ a ∈ l := by
  induction l with
  | nil => simp [insertR]
  | cons y ys ih =>
    by_cases h : r x y
    · simp [insertR, if_pos h, List.mem_cons]
    · simp only [insertR, if_neg h, List.mem_cons, ih]
      tauto

theorem mem_sortR (r : κ → κ → Bool) (l : List κ) (a : κ) :
    a ∈ sortR r l ↔ a ∈ l := by
  induction l with
  | nil => simp [sortR]
  | cons x xs ih => simp [sortR, mem_insertR, ih]

theorem pairwise_insertR (r : κ → κ → Bool)
    (htot : ∀ a b, r a b = true ∨ r b a = true)
    (htrans : ∀ a b c, r a b = true → r b c = true → r a c = true)
    (x : κ) (l : List κ)
    (hl : l.Pairwise (fun a b => r a b = true)) :
    (insertR r x l).Pairwise (fun a b => r a b = true) := by
  induction l with
  | nil => simp [insertR]
  | cons y ys ih =>
    rcases List.pairwise_cons.mp hl with ⟨hy, hys⟩
    by_cases h : r x y
    · simp only [insertR, if_pos h]
      refine List.pairwise_cons.mpr ⟨?_, hl⟩
      intro b hb
      rcases List.mem_cons.mp hb with rfl | hb
      · exact h
      · exact htrans x y b h (hy b hb)
    · simp only [insertR, if_neg h]
      refine List.pairwise_cons.mpr ⟨?_, ih hys⟩
      intro b hb
      rcases (mem_insertR r x ys b).mp hb with rfl | hb
      · rcases htot b y with hby | hyb
        · exact absurd hby h
        · exact hyb
      · exact hy b hb

theorem pairwise_sortR (r : κ → κ → Bool)
    (htot : ∀ a b, r a b = true ∨ r b a = true)
    (htrans : ∀ a b c, r a b = true → r b c = true → r a c = true)
    (l : List κ) :
    (sortR r l).Pairwise (fun a b => r a b = true) := by
  induction l with
  | nil => simp [sortR]
  | cons x xs ih => exact pairwise_insertR r htot htrans x _ ih

theorem perm_insertR (r : κ → κ → Bool) (x : κ) (l : List κ) :
    (insertR r x l).Perm (x :: l) := by
  induction l with
  | nil => simp [insertR]
  | cons y ys ih =>
    by_cases h : r x y
    · simp [insertR, h]
    · simp only [insertR, if_neg h]
      exact (ih.cons y).trans (List.Perm.swap x y ys)

theorem perm_sortR (r : κ → κ → Bool) (l : List κ) :
    (sortR r l).Perm l := by
  induction l with
  | nil => simp [sortR]
  | cons x xs ih => exact (perm_insertR r x (sortR r xs)).trans (ih.cons x)

theorem mem_dedupFirstAux [DecidableEq κ] (seen l : List κ) (a : κ) :
    a ∈ dedupFirstAux seen l ↔ a ∈ l ∧ a ∉ seen := by
  induction l generalizing seen with
  | nil => simp [dedupFirstAux]
  | cons x xs ih =>
    by_cases hx : x ∈ seen
    · simp only [dedupFirstAux, if_pos hx, ih, List.mem_cons]
      constructor
      · rintro ⟨hmem, hns⟩; exact ⟨.inr hmem, hns⟩
      · rintro ⟨rfl | hmem, hns⟩
        · exact absurd hx hns
        · exact ⟨hmem, hns⟩
    · simp only [dedupFirstAux, if_neg hx, List.mem_cons, ih]
      constructor
      · rintro (rfl | ⟨hmem, hns⟩)
        · exact ⟨.inl rfl, hx⟩
        · exact ⟨.inr hmem, fun hs => hns (.inr hs)⟩
      · rintro ⟨rfl | hmem, hns⟩
        · exact .inl rfl
        · by_cases hax : a = x
          · exact .inl hax
          · exact .inr ⟨hmem, by simpa [hax] using hns⟩

theorem mem_dedupFirst [DecidableEq κ] (l : List κ) (a : κ) :
    a ∈ dedupFirst l ↔ a ∈ l := by
  simp [dedupFirst, mem_dedupFirstAux]

theorem nodup_dedupFirstAux [DecidableEq κ] (seen l : List κ) :
    (dedupFirstAux seen l).Nodup := by
  induction l generalizing seen with
  | nil => simp [dedupFirstAux]
  | cons x xs ih =>
    by_cases hx : x ∈ seen
    · simpa [dedupFirstAux, if_pos hx] using ih seen
    · simp only [dedupFirstAux, if_neg hx]
      refine List.nodup_cons.mpr ⟨?_, ih (x :: seen)⟩
      intro hmem
      exact ((mem_dedupFirstAux _ _ _).mp hmem).2 (List.mem_cons_self x seen)

theorem nodup_dedupFirst [DecidableEq κ] (l : List κ) :
    (dedupFirst l).Nodup :=
  nodup_dedupFirstAux [] l

/-! ## String order (Python sorts and pandas key sorts compare strings
by Unicode code point) -/

/-- Lexicographic order on character lists by code point. -/
def lexLe : List Char → List Char → Bool
  | [], _ => true
  | _ :: _, [] => false
  | c :: cs, d :: ds =>
    if c.toNat < d.toNat then true
    else if d.toNat < c.toNat then false
    else lexLe cs ds

/-- The string order used by Python's `sorted` and pandas' key sort. -/
def strLe (s t : String) : Bool := lexLe s.data t.data

theorem lexLe_total (a b : List Char) : lexLe a b = true ∨ lexLe b a = true := by
  induction a generalizing b with
  | nil => exact .inl rfl
  | cons c cs ih =>
    cases b with
    | nil => exact .inr rfl
    | cons d ds =>
      rcases Nat.lt_trichotomy c.toNat d.toNat with h | h | h
      · left; simp [lexLe, h]
      · rcases ih ds with h1 | h1
        · left; simp [lexLe, h, h1]
        · right; simp [lexLe, h, h1]
      · right; simp [lexLe, h]

theorem lexLe_trans (a b c : List Char) :
    lexLe a b = true → lexLe b c = true → lexLe a c = true := by
  induction a generalizing b c with
  | nil => intro _ _; rfl
  | cons x xs ih =>
    intro hab hbc
    cases b with
    | nil => simp [lexLe] at hab
    | cons y ys =>
      cases c with
      | nil => simp [lexLe] at hbc
      | cons z zs =>
        simp only [lexLe] at hab hbc ⊢
        by_cases hxy : x.toNat < y.toNat
        · by_cases hyz : y.toNat < z.toNat
          · have : x.toNat < z.toNat := Nat.lt_trans hxy hyz
            simp [this]
          · by_cases hzy : z.toNat < y.toNat
            · simp [hyz, hzy] at hbc
            · have hyez : y.toNat = z.toNat := Nat.le_antisymm (Nat.le_of_not_lt hzy) (Nat.le_of_not_lt hyz)
              have : x.toNat < z.toNat := hyez ▸ hxy
              simp [this]
        · by_cases hyx : y.toNat < x.toNat
          · simp [hxy, hyx] at hab
          · have hxey : x.toNat = y.toNat := Nat.le_antisymm (Nat.le_of_not_lt hyx) (Nat.le_of_not_lt hxy)
            simp only [if_neg hxy, if_neg hyx] at hab
            by_cases hyz : y.toNat < z.toNat
            · have : x.toNat < z.toNat := hxey ▸ hyz
              simp [this]
            · by_cases hzy : z.toNat < y.toNat
              · simp [hyz, hzy] at hbc
              · have hyez : y.toNat = z.toNat := Nat.le_antisymm (Nat.le_of_not_lt hzy) (Nat.le_of_not_lt hyz)
                simp only [if_neg hyz, if_neg hzy] at hbc
                have hxz : ¬ x.toNat < z.toNat := by omega
                have hzx : ¬ z.toNat < x.toNat := by omega
                simp [hxz, hzx, ih ys zs hab hbc]

theorem strLe_total (a b : String) : strLe a b = true ∨ strLe b a = true :=
  lexLe_total a.data b.data

theorem strLe_trans (a b c : String) :
    strLe a b = true → strLe b c = true → strLe a c = true :=
  lexLe_trans a.data b.data c.data

/-- The integer order used when pandas sorts numeric group keys. -/
def intLe (a b : Int) : Bool := decide (a ≤ b)

theorem intLe_total (a b : Int) : intLe a b = true ∨ intLe b a = true := by
  simp only [intLe, decide_eq_true_eq]
  omega

theorem intLe_trans (a b c : Int) :
    intLe a b = true → intLe b c = true → intLe a c = true := by
  simp only [intLe, decide_eq_true_eq]
  omega

/-! ## Normalizer (`app.py` lines 36-50) -/

/-- Python `str(...)`/`astype(str)` of a possibly-missing text cell:
a missing value (`NaN`) renders as the literal string `"nan"`. -/
def pyStr : Option String → String
  | none => "nan"
  | some s => s

/-- `df_clientes['Nome Completo'] = df_clientes['Primeiro Nome'].astype(str)
+ ' ' + df_clientes['Sobrenome'].astype(str)` (line 38). -/
def nomeCompletoDerived (p s : Option String) : String :=
  pyStr p ++ " " ++ pyStr s

/-- The customer-normalization branch (lines 37-39): derive
`Nome Completo` and drop the two original name columns. -/
def normalizeCliente (c : ClienteRaw) : Cliente :=
  { idCliente := c.idCliente
    nomeCompleto := some (nomeCompletoDerived c.primeiroNome c.sobrenome) }

/-! ## Joiner (`app.py` lines 53-59) -/

/-- Multiplication with pandas null propagation
(`Qtd Vendida * Preço Unitario`). -/
def mulOpt : Option Int → Option Int → Option Int
  | some a, some b => some (a * b)
  | _, _ => none

/-- One left-merge lookup: the reference rows matching key `k`, or a
single `none` when nothing matches (`how='left'` keeps the sales row
with null reference columns). -/
def leftLookup (key : ρ → Int) (k : Int) (refs : List ρ) : List (Option ρ) :=
  match refs.filter (fun x => decide (key x = k)) with
  | [] => [none]
  | ms => ms.map some

/-- Assemble one fact row from a sales row and its (possibly missing)
matches, including the derived columns `Ano` (line 58) and
`Valor da Venda` (line 59). -/
def buildFact (v : Venda) (c : Option Cliente) (p : Option Produto)
    (l : Option Loja) : FactRow :=
  { dataVenda := v.dataVenda
    ordemCompra := v.ordemCompra
    idProduto := v.idProduto
    idCliente := v.idCliente
    qtdVendida := v.qtdVendida
    idLoja := v.idLoja
    nomeCompleto := c.bind Cliente.nomeCompleto
    produto := p.bind Produto.produto
    tipoProduto := p.bind Produto.tipoProduto
    marca := p.bind Produto.marca
    precoUnitario := p.bind Produto.precoUnitario
    nomeLoja := l.bind Loja.nomeLoja
    ano := v.dataVenda.map SaleDate.year
    valorVenda := mulOpt v.qtdVendida (p.bind Produto.precoUnitario) }

/-- `df_total` (lines 53-59): three successive left merges of the sales
table with customers (`ID Cliente`), products (`ID Produto`) and stores
(`ID Loja`), then the derived columns. -/
def dfTotal (vendas : List Venda) (clientes : List Cliente)
    (produtos : List Produto) (lojas : List Loja) : List FactRow :=
  vendas.flatMap fun v =>
    (leftLookup Cliente.idCliente v.idCliente clientes).flatMap fun c =>
      (leftLookup Produto.idProduto v.idProduto produtos).flatMap fun p =>
        (leftLookup Loja.idLoja v.idLoja lojas).map fun l =>
          buildFact v c p l

/-! ## Group-by-and-sum and `nlargest` -/

/-- pandas `.sum()` over a measure: missing values contribute `0`. -/
def valOrZero : Option Int → Int
  | none => 0
  | some v => v

/-- The sum of `Valor da Venda` over a list of rows (pandas skip-NA
summation). -/
def sumValor (rows : List FactRow) : Int :=
  (rows.map (fun r => valOrZero r.valorVenda)).sum

/-- `df.groupby(k)['Valor da Venda'].sum()`: rows with a missing key are
dropped (`dropna=True`), the group keys are sorted ascending, and each
group's measure values are summed. -/
def groupbySum [DecidableEq κ] (le : κ → κ → Bool) (key : FactRow → Option κ)
    (rows : List FactRow) : List (κ × Int) :=
  (sortR le (dedupFirst (rows.filterMap key))).map
    (fun k => (k, sumValor (rows.filter (fun r => decide (key r = some k)))))

/-- The value-descending relation used by `Series.nlargest`
(stable, so ties keep first-encountered order, `keep='first'`). -/
def valDesc (a b : κ × Int) : Bool := decide (b.2 ≤ a.2)

/-- `Series.nlargest(10)`: stable descending sort by value, then the
first ten entries. -/
def nlargest10 (gs : List (κ × Int)) : List (κ × Int) :=
  (sortR valDesc gs).take 10

/-! ## Filter Index (`app.py` lines 63-69) and brand cascade
(lines 128-136) -/

/-- The `filtros` dictionary: for each dimension, the distinct non-null
values of the fact table in first-encounter order (`dropna().unique()`). -/
structure Filtros where
  tipo : List String
  marca : List String
  produto : List String
  loja : List String
  cliente : List String
  deriving DecidableEq, Repr

def mkFiltros (dfT : List FactRow) : Filtros :=
  { tipo := dedupFirst (dfT.filterMap FactRow.tipoProduto)
    marca := dedupFirst (dfT.filterMap FactRow.marca)
    produto := dedupFirst (dfT.filterMap FactRow.produto)
    loja := dedupFirst (dfT.filterMap FactRow.nomeLoja)
    cliente := dedupFirst (dfT.filterMap FactRow.nomeCompleto) }

/-- `if tipo:` — Python truthiness of an optional string. -/
def truthyStr : Option String → Bool
  | none => false
  | some s => decide (s ≠ "")

/-- `atualizar_marcas` (lines 132-136): with a truthy selected type,
the sorted distinct non-null brands among rows of that type; otherwise
the empty list. -/
def atualizarMarcas (dfT : List FactRow) (tipo : Option String) : List String :=
  if truthyStr tipo then
    sortR strLe (dedupFirst
      ((dfT.filter (fun r => decide (r.tipoProduto = tipo))).filterMap FactRow.marca))
  else []

/-! ## Query Engine (`app.py` lines 152-164) -/

/-- The five dropdown values handed to `atualizar_graficos`.  A `none`
scalar or an empty list is falsy in the Python `if` guards. -/
structure Selection where
  tipo : Option String
  marca : Option String
  produtos : List String
  lojas : List String
  clientes : List String
  deriving DecidableEq, Repr

/-- `if tipo: df = df[df['Tipo do Produto'] == tipo]` (lines 155-156);
a missing cell compares unequal to any selected value. -/
def filtraTipo (tipo : Option String) (rows : List FactRow) : List FactRow :=
  if truthyStr tipo then rows.filter (fun r => decide (r.tipoProduto = tipo)) else rows

/-- `if marca: df = df[df['Marca'] == marca]` (lines 157-158). -/
def filtraMarca (marca : Option String) (rows : List FactRow) : List FactRow :=
  if truthyStr marca then rows.filter (fun r => decide (r.marca = marca)) else rows

/-- `isin` membership of a possibly-missing cell: a missing cell is
never a member. -/
def isinStr (cell : Option String) (vs : List String) : Bool :=
  match cell with
  | some s => vs.contains s
  | none => false

/-- `if produtos: df = df[df['Produto'].isin(produtos)]` (lines 159-160). -/
def filtraProduto (ps : List String) (rows : List FactRow) : List FactRow :=
  if ps.isEmpty then rows else rows.filter (fun r => isinStr r.produto ps)

/-- `if lojas: df = df[df['Nome da Loja'].isin(lojas)]` (lines 161-162). -/
def filtraLoja (ls : List String) (rows : List FactRow) : List FactRow :=
  if ls.isEmpty then rows else rows.filter (fun r => isinStr r.nomeLoja ls)

/-- `if clientes: df = df[df['Nome Completo'].isin(clientes)]`
(lines 163-164). -/
def filtraCliente (cs : List String) (rows : List FactRow) : List FactRow :=
  if cs.isEmpty then rows else rows.filter (fun r => isinStr r.nomeCompleto cs)

/-- The Query Engine: the five guarded boolean-mask filters of
`atualizar_graficos` applied in program order to (a copy of) the fact
table. -/
def applyFilters (rows : List FactRow) (s : Selection) : List FactRow :=
  filtraCliente s.clientes
    (filtraLoja s.lojas
      (filtraProduto s.produtos
        (filtraMarca s.marca
          (filtraTipo s.tipo rows))))

/-! ## Aggregators (`app.py` lines 170-228) -/

/-- Chart 1 data (line 171): `df.groupby('Ano')['Valor da Venda'].sum()`. -/
def vendasPorAno (rows : List FactRow) : List (Int × Int) :=
  groupbySum intLe FactRow.ano rows

/-- Chart 2 data (line 179):
`df.groupby('Nome Completo')['Valor da Venda'].sum().nlargest(10)`. -/
def topClientes (rows : List FactRow) : List (String × Int) :=
  nlargest10 (groupbySum strLe FactRow.nomeCompleto rows)

/-- Chart 3 data (line 190):
`df.groupby('Produto')['Valor da Venda'].sum().nlargest(10)`. -/
def topProdutos (rows : List FactRow) : List (String × Int) :=
  nlargest10 (groupbySum strLe FactRow.produto rows)

/-- Chart 4 data (line 201): `df.groupby('Nome da Loja')['Valor da Venda'].sum()`. -/
def vendasLojas (rows : List FactRow) : List (String × Int) :=
  groupbySum strLe FactRow.nomeLoja rows

/-- Chart 5 data (lines 211-217): the pie chart sums `Valor da Venda`
per `Tipo do Produto`, dropping missing names. -/
def distribuicaoTipo (rows : List FactRow) : List (String × Int) :=
  groupbySum strLe FactRow.tipoProduto rows

/-- `str(Period('M'))` of a parsed date: `"YYYY-MM"` with a zero-padded
month. -/
def periodStr (d : SaleDate) : String :=
  toString d.year ++ "-" ++ (if d.month < 10 then "0" else "") ++ toString d.month

/-- The `Mês` column (line 220):
`df['Data da Venda'].dt.to_period('M').astype(str)`.  A missing date
gives the `NaT` period, which `astype(str)` renders as the literal
string `"NaT"`. -/
def mesLabel : Option SaleDate → String
  | none => "NaT"
  | some d => periodStr d

/-- Chart 6 data (lines 220-221): group by the derived `Mês` label and
sum `Valor da Venda`.  The label is never a missing value, so no row is
dropped by the group-by. -/
def vendasMes (rows : List FactRow) : List (String × Int) :=
  groupbySum strLe (fun r => some (mesLabel r.dataVenda)) rows

/-! ## Layout of the two `Dash` app objects (`app.py` lines 73-125 and
235-242) -/

/-- A component of a Dash layout, as far as the spec's widget/chart
inventory is concerned: a heading, a `dcc.Dropdown` (id, `multi` flag,
statically supplied option labels) or a `dcc.Graph` (id). -/
inductive Component where
  | heading : String → Component
  | dropdown : String → Bool → List String → Component
  | graph : String → Component
  deriving DecidableEq, Repr

def isDropdown : Component → Bool
  | .dropdown _ _ _ => true
  | _ => false

def isGraph : Component → Bool
  | .graph _ => true
  | _ => false

/-- The layout assigned to the first app object (lines 76-125): a
heading, five dropdowns (the brand dropdown is created with no static
options — they arrive via `atualizar_marcas`), and six graphs. -/
def layoutPrincipal (f : Filtros) : List Component :=
  [ .heading "📊 Dashboard de Vendas"
  , .dropdown "filtro_tipo" false (sortR strLe f.tipo)
  , .dropdown "filtro_marca" false []
  , .dropdown "filtro_produto" true (sortR strLe f.produto)
  , .dropdown "filtro_loja" true (sortR strLe f.loja)
  , .dropdown "filtro_cliente" true (sortR strLe f.cliente)
  , .graph "grafico_ano"
  , .graph "grafico_cliente"
  , .graph "grafico_produto"
  , .graph "grafico_loja"
  , .graph "grafico_pizza_tipo"
  , .graph "grafico_area_tempo" ]

/-- The layout of the app object created at line 237 and assigned at
lines 240-242.  Module execution rebinds the names `app` (line 237) and
`server` (line 238) to this second app, so after the module has fully
executed — in particular when a WSGI host imports it and serves the
exported `server` — this single heading is the page that is served. -/
def layoutFinal : List Component :=
  [ .heading "Hello Dash" ]

/-! ## Heap model of the callback pass (`app.py` lines 152-230)

`atualizar_graficos` starts from `df = df_total.copy()` (line 153);
each active filter rebinds `df` to a freshly allocated frame (boolean
mask indexing returns a new object); lines 167 and 220 then write
columns **in place** on whatever object `df` denotes.  The heap model
makes object identity explicit so that "the base fact table is never
mutated" is a statement about the heap cell holding `df_total`. -/

/-- A DataFrame object as the callback sees it: the fact rows plus
whether the derived `Mês` column has been added (when present its
values are `mesLabel` of the date column). -/
structure PFrame where
  rows : List FactRow
  hasMes : Bool
  deriving DecidableEq, Repr

/-- The Python object store restricted to DataFrames: frames addressed
by object identity, plus a fresh-address counter. -/
structure Heap where
  mem : Nat → PFrame
  next : Nat

/-- Allocate a fresh frame object (`copy()` / mask indexing result). -/
def Heap.alloc (h : Heap) (f : PFrame) : Heap × Nat :=
  ({ mem := fun q => if q = h.next then f else h.mem q, next := h.next + 1 }, h.next)

/-- Write a frame object in place (column assignment). -/
def Heap.store (h : Heap) (r : Nat) (f : PFrame) : Heap :=
  { mem := fun q => if q = r then f else h.mem q, next := h.next }

/-- One guarded filter `if active: df = df[mask]`: when active,
allocate the filtered frame as a new object and rebind `df` to it;
otherwise leave the binding alone. -/
def filterStep (h : Heap) (d : Nat) (active : Bool) (p : FactRow → Bool) :
    Heap × Nat :=
  if active then
    h.alloc { rows := (h.mem d).rows.filter p, hasMes := (h.mem d).hasMes }
  else (h, d)

/-- The five guarded filters of lines 155-164, as (guard, mask) pairs in
program order. -/
def cbFilters (s : Selection) : List (Bool × (FactRow → Bool)) :=
  [ (truthyStr s.tipo, fun r => decide (r.tipoProduto = s.tipo))
  , (truthyStr s.marca, fun r => decide (r.marca = s.marca))
  , (!s.produtos.isEmpty, fun r => isinStr r.produto s.produtos)
  , (!s.lojas.isEmpty, fun r => isinStr r.nomeLoja s.lojas)
  , (!s.clientes.isEmpty, fun r => isinStr r.nomeCompleto s.clientes) ]

/-- Run a sequence of guarded filters, threading the heap and the
current binding of `df`. -/
def runFilters (h : Heap) (d : Nat) :
    List (Bool × (FactRow → Bool)) → Heap × Nat
  | [] => (h, d)
  | (a, p) :: rest =>
    let hd := filterStep h d a p
    runFilters hd.1 hd.2 rest

/-- Line 167: `df['Data da Venda'] = pd.to_datetime(df['Data da Venda'],
errors='coerce')` — an in-place column write; the column is already of
datetime type, so each written value equals the old one. -/
def coerceDatas (f : PFrame) : PFrame :=
  { rows := f.rows.map (fun r => { r with dataVenda := r.dataVenda })
    hasMes := f.hasMes }

/-- Line 220: `df['Mês'] = df['Data da Venda'].dt.to_period('M').astype(str)`
— an in-place write adding the `Mês` column. -/
def addMes (f : PFrame) : PFrame :=
  { rows := f.rows, hasMes := true }

/-- The six chart data series returned by `atualizar_graficos`. -/
structure Charts where
  figAno : List (Int × Int)
  figClientes : List (String × Int)
  figProdutos : List (String × Int)
  figLojas : List (String × Int)
  figTipo : List (String × Int)
  figMes : List (String × Int)
  deriving DecidableEq, Repr

/-- The two in-place column writes of lines 167 and 220, applied to the
object `df` currently denotes: first the date re-coercion, then the
`Mês` column. -/
def finishHeap (h : Heap) (d : Nat) : Heap :=
  let h7 := h.store d (coerceDatas (h.mem d))
  h7.store d (addMes (h7.mem d))

/-- The whole callback pass of `atualizar_graficos` on the heap:
copy the base table, apply the five guarded filters, re-coerce the date
column in place, compute charts 1-5 from the frame `df` then denotes,
add the `Mês` column in place, compute chart 6. -/
def runCallback (h : Heap) (base : Nat) (s : Selection) : Heap × Charts :=
  let a1 := h.alloc (h.mem base)
  let fs := runFilters a1.1 a1.2 (cbFilters s)
  let rows5 := ((finishHeap fs.1 fs.2).mem fs.2).rows
  let rows6 := ((finishHeap fs.1 fs.2).mem fs.2).rows
  (finishHeap fs.1 fs.2,
   { figAno := vendasPorAno rows5
     figClientes := topClientes rows5
     figProdutos := topProdutos rows5
     figLojas := vendasLojas rows5
     figTipo := distribuicaoTipo rows5
     figMes := vendasMes rows6 })

/-- Repeated callback invocations with varying selections against the
same base table object. -/
def runMany (h : Heap) (base : Nat) : List Selection → Heap
  | [] => h
  | s :: ss => runMany (runCallback h base s).1 base ss

/-! ## Concrete sample data (used by witnesses and counterexamples) -/

/-- A fully matched fact row: shoes of brand X sold to Alice in
March 2021, 2 × 10. -/
def exRowA : FactRow :=
  { dataVenda := some ⟨2021, 3⟩, ordemCompra := 1, idProduto := 1, idCliente := 1
    qtdVendida := some 2, idLoja := 1, nomeCompleto := some "Alice"
    produto := some "P1", tipoProduto := some "Shoes", marca := some "X"
    precoUnitario := some 10, nomeLoja := some "L1", ano := some 2021
    valorVenda := some 20 }

/-- A fact row whose sale date failed to parse (null date, hence null
year) but whose product matched, so its line total is present: 1 × 10. -/
def exRowC : FactRow :=
  { dataVenda := none, ordemCompra := 3, idProduto := 1, idCliente := 1
    qtdVendida := some 1, idLoja := 1, nomeCompleto := some "Alice"
    produto := some "P1", tipoProduto := some "Shoes", marca := some "X"
    precoUnitario := some 10, nomeLoja := some "L1", ano := none
    valorVenda := some 10 }

/-- A fact row with a product type but a missing brand. -/
def exRowM : FactRow :=
  { dataVenda := some ⟨2021, 3⟩, ordemCompra := 4, idProduto := 2, idCliente := 1
    qtdVendida := some 1, idLoja := 1, nomeCompleto := some "Alice"
    produto := some "P2", tipoProduto := some "A", marca := none
    precoUnitario := some 5, nomeLoja := some "L1", ano := some 2021
    valorVenda := some 5 }

/-- A sample sales row. -/
def exVenda : Venda :=
  { dataVenda := some ⟨2021, 3⟩, ordemCompra := 1, idProduto := 5
    idCliente := 7, qtdVendida := some 2, idLoja := 9 }

/-- A sample product row matching `exVenda`. -/
def exProduto : Produto :=
  { idProduto := 5, produto := some "P1", tipoProduto := some "Shoes"
    marca := some "X", precoUnitario := some 10 }

/-- A raw customer row with a missing last name, matching `exVenda`. -/
def exClienteRaw : ClienteRaw :=
  { idCliente := 7, primeiroNome := some "Maria", sobrenome := none }

/-! ## Query Engine lemmas -/

theorem mem_filtraTipo (tipo : Option String) (rows : List FactRow) (r : FactRow)
    (h : r ∈ filtraTipo tipo rows) :
    r ∈ rows ∧ (∀ t, tipo = some t → t ≠ "" → r.tipoProduto = some t) := by
  by_cases ha : truthyStr tipo = true
  · rw [filtraTipo, if_pos ha] at h
    obtain ⟨hmem, hp⟩ := List.mem_filter.mp h
    refine ⟨hmem, ?_⟩
    rintro t rfl _
    exact of_decide_eq_true hp
  · rw [filtraTipo, if_neg ha] at h
    refine ⟨h, ?_⟩
    rintro t rfl hne
    simp [truthyStr, hne] at ha

theorem mem_filtraMarca (marca : Option String) (rows : List FactRow) (r : FactRow)
    (h : r ∈ filtraMarca marca rows) :
    r ∈ rows ∧ (∀ m, marca = some m → m ≠ "" → r.marca = some m) := by
  by_cases ha : truthyStr marca = true
  · rw [filtraMarca, if_pos ha] at h
    obtain ⟨hmem, hp⟩ := List.mem_filter.mp h
    refine ⟨hmem, ?_⟩
    rintro m rfl _
    exact of_decide_eq_true hp
  · rw [filtraMarca, if_neg ha] at h
    refine ⟨h, ?_⟩
    rintro m rfl hne
    simp [truthyStr, hne] at ha

theorem isinStr_spec (cell : Option String) (vs : List String)
    (h : isinStr cell vs = true) : ∃ v ∈ vs, cell = some v := by
  cases cell with
  | none => simp [isinStr] at h
  | some s =>
    refine ⟨s, ?_, rfl⟩
    simpa [isinStr] using h

theorem mem_filtraProduto (ps : List String) (rows : List FactRow) (r : FactRow)
    (h : r ∈ filtraProduto ps rows) :
    r ∈ rows ∧ (ps ≠ [] → ∃ p ∈ ps, r.produto = some p) := by
  by_cases ha : ps.isEmpty
  · rw [filtraProduto, if_pos ha] at h
    exact ⟨h, fun hne => absurd (List.isEmpty_iff.mp ha) hne⟩
  · rw [filtraProduto, if_neg ha] at h
    obtain ⟨hmem, hp⟩ := List.mem_filter.mp h
    exact ⟨hmem, fun _ => isinStr_spec _ _ hp⟩

theorem mem_filtraLoja (ls : List String) (rows : List FactRow) (r : FactRow)
    (h : r ∈ filtraLoja ls rows) :
    r ∈ rows ∧ (ls ≠ [] → ∃ v ∈ ls, r.nomeLoja = some v) := by
  by_cases ha : ls.isEmpty
  · rw [filtraLoja, if_pos ha] at h
    exact ⟨h, fun hne => absurd (List.isEmpty_iff.mp ha) hne⟩
  · rw [filtraLoja, if_neg ha] at h
    obtain ⟨hmem, hp⟩ := List.mem_filter.mp h
    exact ⟨hmem, fun _ => isinStr_spec _ _ hp⟩

theorem mem_filtraCliente (cs : List String) (rows : List FactRow) (r : FactRow)
    (h : r ∈ filtraCliente cs rows) :
    r ∈ rows ∧ (cs ≠ [] → ∃ v ∈ cs, r.nomeCompleto = some v) := by
  by_cases ha : cs.isEmpty
  · rw [filtraCliente, if_pos ha] at h
    exact ⟨h, fun hne => absurd (List.isEmpty_iff.mp ha) hne⟩
  · rw [filtraCliente, if_neg ha] at h
    obtain ⟨hmem, hp⟩ := List.mem_filter.mp h
    exact ⟨hmem, fun _ => isinStr_spec _ _ hp⟩

/-- C2: every row the Query Engine outputs is a row of the input fact
table, and it satisfies every active filter predicate simultaneously:
equality with the selected product type and brand (when those are
truthy), and membership of the selected product, store, and customer
name sets (when those are non-empty).  An absent (`none`) or empty
field constrains nothing. -/
theorem queryEngine_subset_conjunctive (rows : List FactRow) (s : Selection)
    (r : FactRow) (hr : r ∈ applyFilters rows s) :
    r ∈ rows ∧
    (∀ t, s.tipo = some t → t ≠ "" → r.tipoProduto = some t) ∧
    (∀ m, s.marca = some m → m ≠ "" → r.marca = some m) ∧
    (s.produtos ≠ [] → ∃ p ∈ s.produtos, r.produto = some p) ∧
    (s.lojas ≠ [] → ∃ v ∈ s.lojas, r.nomeLoja = some v) ∧
    (s.clientes ≠ [] → ∃ v ∈ s.clientes, r.nomeCompleto = some v) := by
  unfold applyFilters at hr
  obtain ⟨hr, hcli⟩ := mem_filtraCliente _ _ _ hr
  obtain ⟨hr, hloj⟩ := mem_filtraLoja _ _ _ hr
  obtain ⟨hr, hpro⟩ := mem_filtraProduto _ _ _ hr
  obtain ⟨hr, hmar⟩ := mem_filtraMarca _ _ _ hr
  obtain ⟨hr, htip⟩ := mem_filtraTipo _ _ _ hr
  exact ⟨hr, htip, hmar, hpro, hloj, hcli⟩

/-- Witness for C2 at a concrete input: selecting type `"Shoes"`,
product set `["P1"]` on a two-row table keeps `exRowA`, which satisfies
all of the asserted predicates. -/
theorem queryEngine_subset_conjunctive_witness :
    exRowA ∈ applyFilters [exRowA, exRowM] ⟨some "Shoes", none, ["P1"], [], []⟩ ∧
    (exRowA ∈ [exRowA, exRowM] ∧
     (∀ t, (some "Shoes" : Option String) = some t → t ≠ "" → exRowA.tipoProduto = some t) ∧
     (∀ m, (none : Option String) = some m → m ≠ "" → exRowA.marca = some m) ∧
     ((["P1"] : List String) ≠ [] → ∃ p ∈ ["P1"], exRowA.produto = some p) ∧
     (([] : List String) ≠ [] → ∃ v ∈ ([] : List String), exRowA.nomeLoja = some v) ∧
     (([] : List String) ≠ [] → ∃ v ∈ ([] : List String), exRowA.nomeCompleto = some v)) :=
  ⟨by decide,
   queryEngine_subset_conjunctive [exRowA, exRowM] ⟨some "Shoes", none, ["P1"], [], []⟩
     exRowA (by decide)⟩

/-- C3: when every field of the selection is absent (`None`) or empty
(the empty string for the single-selects, the empty list for the
multi-selects), every guard in `atualizar_graficos` is falsy and the
Query Engine returns the fact table unchanged. -/
theorem queryEngine_empty_identity (rows : List FactRow) (s : Selection)
    (ht : s.tipo = none ∨ s.tipo = some "")
    (hm : s.marca = none ∨ s.marca = some "")
    (hp : s.produtos = []) (hl : s.lojas = []) (hc : s.clientes = []) :
    applyFilters rows s = rows := by
  have ht' : truthyStr s.tipo = false := by
    rcases ht with h | h <;> simp [h, truthyStr]
  have hm' : truthyStr s.marca = false := by
    rcases hm with h | h <;> simp [h, truthyStr]
  simp [applyFilters, filtraTipo, filtraMarca, filtraProduto, filtraLoja,
    filtraCliente, ht', hm', hp, hl, hc]

/-- Witness for C3 at a concrete input: the all-empty selection leaves
a two-row table unchanged. -/
theorem queryEngine_empty_identity_witness :
    applyFilters [exRowA, exRowM] ⟨none, some "", [], [], []⟩ = [exRowA, exRowM] :=
  queryEngine_empty_identity [exRowA, exRowM] ⟨none, some "", [], [], []⟩
    (.inl rfl) (.inr rfl) rfl rfl rfl

/-! ## Aggregator lemmas -/

theorem sumValor_cons (r : FactRow) (l : List FactRow) :
    sumValor (r :: l) = valOrZero r.valorVenda + sumValor l := by
  simp [sumValor]

theorem mem_groupbySum_snd [DecidableEq κ] (le : κ → κ → Bool)
    (key : FactRow → Option κ) (rows : List FactRow) (e : κ × Int)
    (he : e ∈ groupbySum le key rows) :
    e.2 = sumValor (rows.filter (fun r => decide (key r = some e.1))) := by
  obtain ⟨k, _, hk⟩ := List.mem_map.mp he
  cases hk
  rfl

theorem mem_groupbySum_of_key [DecidableEq κ] (le : κ → κ → Bool)
    (key : FactRow → Option κ) (rows : List FactRow) (k : κ)
    (hk : k ∈ rows.filterMap key) :
    (k, sumValor (rows.filter (fun r => decide (key r = some k))))
      ∈ groupbySum le key rows := by
  unfold groupbySum
  exact List.mem_map_of_mem _ ((mem_sortR _ _ _).mpr ((mem_dedupFirst _ _).mpr hk))

theorem valDesc_total (a b : κ × Int) : valDesc a b = true ∨ valDesc b a = true := by
  simp only [valDesc, decide_eq_true_eq]
  omega

theorem valDesc_trans (a b c : κ × Int) :
    valDesc a b = true → valDesc b c = true → valDesc a c = true := by
  simp only [valDesc, decide_eq_true_eq]
  omega

theorem length_nlargest10 (gs : List (κ × Int)) : (nlargest10 gs).length ≤ 10 :=
  List.length_take_le 10 _

theorem sorted_nlargest10 (gs : List (κ × Int)) :
    (nlargest10 gs).Pairwise (fun a b => b.2 ≤ a.2) := by
  have h := pairwise_sortR valDesc valDesc_total valDesc_trans gs
  have h' : (sortR valDesc gs).Pairwise (fun a b : κ × Int => b.2 ≤ a.2) :=
    h.imp (fun hab => by simpa [valDesc] using hab)
  exact h'.sublist (List.take_sublist 10 _)

theorem mem_of_mem_nlargest10 (gs : List (κ × Int)) (e : κ × Int)
    (he : e ∈ nlargest10 gs) : e ∈ gs :=
  (mem_sortR _ _ _).mp (List.take_subset 10 _ he)

/-- C5: each of the two top-10 aggregators returns at most ten entries,
the entries are in descending order of the summed value, and every
entry is a (group key, summed `Valor da Venda` of that key's rows)
pair. -/
theorem top10_length_sorted (rows : List FactRow) :
    ((topClientes rows).length ≤ 10 ∧
     (topClientes rows).Pairwise (fun a b => b.2 ≤ a.2) ∧
     ∀ e ∈ topClientes rows,
       e.2 = sumValor (rows.filter (fun r => decide (r.nomeCompleto = some e.1)))) ∧
    ((topProdutos rows).length ≤ 10 ∧
     (topProdutos rows).Pairwise (fun a b => b.2 ≤ a.2) ∧
     ∀ e ∈ topProdutos rows,
       e.2 = sumValor (rows.filter (fun r => decide (r.produto = some e.1)))) := by
  refine ⟨⟨length_nlargest10 _, sorted_nlargest10 _, ?_⟩,
          ⟨length_nlargest10 _, sorted_nlargest10 _, ?_⟩⟩
  · intro e he
    exact mem_groupbySum_snd strLe FactRow.nomeCompleto rows e
      (mem_of_mem_nlargest10 _ _ he)
  · intro e he
    exact mem_groupbySum_snd strLe FactRow.produto rows e
      (mem_of_mem_nlargest10 _ _ he)

/-- Witness for C5 at a concrete input: the two-row table with
customers Alice (twice) gives one entry, descending trivially, with the
correct summed value. -/
theorem top10_length_sorted_witness :
    ((topClientes [exRowA, exRowC]).length ≤ 10 ∧
     (topClientes [exRowA, exRowC]).Pairwise (fun a b => b.2 ≤ a.2) ∧
     ∀ e ∈ topClientes [exRowA, exRowC],
       e.2 = sumValor ([exRowA, exRowC].filter
         (fun r => decide (r.nomeCompleto = some e.1)))) ∧
    ((topProdutos [exRowA, exRowC]).length ≤ 10 ∧
     (topProdutos [exRowA, exRowC]).Pairwise (fun a b => b.2 ≤ a.2) ∧
     ∀ e ∈ topProdutos [exRowA, exRowC],
       e.2 = sumValor ([exRowA, exRowC].filter
         (fun r => decide (r.produto = some e.1)))) :=
  top10_length_sorted [exRowA, exRowC]

theorem sumValor_filter_disjoint (p q : FactRow → Bool) (rows : List FactRow)
    (hdisj : ∀ r ∈ rows, ¬(p r = true ∧ q r = true)) :
    sumValor (rows.filter (fun r => p r || q r))
      = sumValor (rows.filter p) + sumValor (rows.filter q) := by
  induction rows with
  | nil => simp [sumValor]
  | cons r rs ih =>
    have ih' := ih (fun x hx => hdisj x (List.mem_cons_of_mem _ hx))
    by_cases hp : p r = true <;> by_cases hq : q r = true
    · exact absurd ⟨hp, hq⟩ (hdisj r (List.mem_cons_self _ _))
    · simp [List.filter_cons, hp, hq, sumValor_cons, ih']
      omega
    · simp [List.filter_cons, hp, hq, sumValor_cons, ih']
      omega
    · simp [List.filter_cons, hp, hq, sumValor_cons, ih']

theorem sum_over_keys [DecidableEq κ] (key : FactRow → Option κ)
    (rows : List FactRow) (ks : List κ) (hnd : ks.Nodup) :
    ((ks.map (fun k =>
        sumValor (rows.filter (fun r => decide (key r = some k))))).sum : Int)
      = sumValor (rows.filter (fun r => decide (∃ k ∈ ks, key r = some k))) := by
  induction ks with
  | nil =>
    simp only [List.map_nil, List.sum_nil]
    have : rows.filter (fun r => decide (∃ k ∈ ([] : List κ), key r = some k)) = [] := by
      simp
    rw [this]
    rfl
  | cons k ks ih =>
    obtain ⟨hk, hnd'⟩ := List.nodup_cons.mp hnd
    rw [List.map_cons, List.sum_cons, ih hnd']
    rw [← sumValor_filter_disjoint _ _ rows ?disj]
    case disj =>
      rintro r _ ⟨h1, h2⟩
      obtain ⟨k', hk', he⟩ := of_decide_eq_true h2
      have := (of_decide_eq_true h1).symm.trans he
      exact hk (Option.some_injective _ this ▸ hk')
    apply congrArg
    apply List.filter_congr
    intro r _
    rw [← Bool.decide_or]
    exact decide_eq_decide.mpr
      (List.exists_mem_cons_iff (fun x => key r = some x) k ks).symm

theorem sum_snd_groupbySum [DecidableEq κ] (le : κ → κ → Bool)
    (key : FactRow → Option κ) (rows : List FactRow) :
    ((groupbySum le key rows).map Prod.snd).sum
      = sumValor (rows.filter (fun r => decide (key r ≠ none))) := by
  unfold groupbySum
  rw [List.map_map]
  have h2 := ((perm_sortR le (dedupFirst (rows.filterMap key))).map
    (fun k => sumValor (rows.filter (fun r => decide (key r = some k))))).sum_eq
  have h1 : (Prod.snd ∘ fun k =>
      (k, sumValor (rows.filter (fun r => decide (key r = some k)))))
      = fun k => sumValor (rows.filter (fun r => decide (key r = some k))) := rfl
  rw [h1, h2, sum_over_keys key rows _ (nodup_dedupFirst _)]
  apply congrArg
  apply List.filter_congr
  intro r hr
  apply decide_eq_decide.mpr
  constructor
  · rintro ⟨k, _, hk⟩
    simp [hk]
  · intro hne
    obtain ⟨k, hk⟩ := Option.ne_none_iff_exists'.mp hne
    exact ⟨k, (mem_dedupFirst _ _).mpr (List.mem_filterMap.mpr ⟨r, hr, hk⟩), hk⟩

/-- C4 counterexample: on the two-row subset `[exRowA, exRowC]` — where
`exRowC` has a null year but line total 10 — the per-year totals sum to
20 while the subset's line totals sum to 30, so the conservation claim
fails as stated. -/
theorem salesByYear_conservation_cex :
    ¬ (((vendasPorAno [exRowA, exRowC]).map Prod.snd).sum
        = sumValor [exRowA, exRowC]) := by
  decide

/-- C4 (amended): the sales-by-year totals, summed over all year
groups, equal the sum of `Valor da Venda` over the rows of the
filtered subset **whose year is non-null** (the group-by drops rows
with a null `Ano`, i.e. a null sale date). -/
theorem salesByYear_conservation_nonnull (rows : List FactRow) :
    ((vendasPorAno rows).map Prod.snd).sum
      = sumValor (rows.filter (fun r => decide (r.ano ≠ none))) :=
  sum_snd_groupbySum intLe FactRow.ano rows

/-! ## Null-date handling (C7) -/

theorem filterMap_key_filter (key : FactRow → Option κ) (q : FactRow → Bool)
    (rows : List FactRow) (hq : ∀ r ∈ rows, key r ≠ none → q r = true) :
    (rows.filter q).filterMap key = rows.filterMap key := by
  induction rows with
  | nil => rfl
  | cons r rs ih =>
    have ih' := ih (fun x hx h => hq x (List.mem_cons_of_mem _ hx) h)
    by_cases hk : key r = none
    · by_cases hqr : q r = true
      · simp [List.filter_cons, hqr, List.filterMap_cons, hk, ih']
      · simp [List.filter_cons, hqr, List.filterMap_cons, hk, ih']
    · have hqr : q r = true := hq r (List.mem_cons_self _ _) hk
      obtain ⟨k, hk'⟩ := Option.ne_none_iff_exists'.mp hk
      simp [List.filter_cons, hqr, List.filterMap_cons, hk', ih']

theorem filter_key_filter [DecidableEq κ] (key : FactRow → Option κ)
    (q : FactRow → Bool) (rows : List FactRow) (k : κ)
    (hq : ∀ r ∈ rows, key r ≠ none → q r = true) :
    (rows.filter q).filter (fun r => decide (key r = some k))
      = rows.filter (fun r => decide (key r = some k)) := by
  rw [List.filter_filter]
  apply List.filter_congr
  intro r hr
  by_cases hk : key r = some k
  · have hqr : q r = true := hq r hr (by simp [hk])
    simp [hk, hqr]
  · simp [hk]

theorem groupbySum_filter_irrelevant [DecidableEq κ] (le : κ → κ → Bool)
    (key : FactRow → Option κ) (q : FactRow → Bool) (rows : List FactRow)
    (hq : ∀ r ∈ rows, key r ≠ none → q r = true) :
    groupbySum le key (rows.filter q) = groupbySum le key rows := by
  unfold groupbySum
  rw [filterMap_key_filter key q rows hq]
  apply List.map_congr_left
  intro k _
  rw [filter_key_filter key q rows k hq]

/-- C7 counterexample: the monthly-trend aggregator does **not**
exclude rows with a null sale date.  On `[exRowA, exRowC]`, where
`exRowC` has a null date and line total 10, the output carries an extra
`("NaT", 10)` group (because `astype(str)` renders the null monthly
period as the literal string `"NaT"`); dropping the null-date row
changes the output. -/
theorem monthlyTrend_nat_cex :
    exRowC.dataVenda = none ∧
    vendasMes [exRowA, exRowC] = [("2021-03", 20), ("NaT", 10)] ∧
    vendasMes [exRowA] = [("2021-03", 20)] := by
  decide

/-- C7 (amended): unparsable dates are nulls (`Option.none`), and on a
fact table whose `Ano` column is derived from the date: the
sales-by-year aggregation is unchanged by removing null-date rows
(they are excluded, since a null date gives a null year and the
group-by drops null keys), but the monthly-trend aggregator maps a
null date to the literal label `"NaT"` and **includes** those rows as
a `"NaT"` group whose value sums their line totals. -/
theorem nullDates_aggregation (rows : List FactRow) (r : FactRow)
    (hr : r ∈ rows) (hd : r.dataVenda = none)
    (hcons : ∀ x ∈ rows, x.ano = x.dataVenda.map SaleDate.year) :
    vendasPorAno (rows.filter (fun x => decide (x.dataVenda ≠ none)))
        = vendasPorAno rows ∧
    mesLabel r.dataVenda = "NaT" ∧
    ("NaT", sumValor (rows.filter (fun x => decide (mesLabel x.dataVenda = "NaT"))))
        ∈ vendasMes rows ∧
    r ∈ rows.filter (fun x => decide (mesLabel x.dataVenda = "NaT")) := by
  refine ⟨?_, by simp [hd, mesLabel], ?_, ?_⟩
  · apply groupbySum_filter_irrelevant
    intro x hx hax
    have hx' := hcons x hx
    cases hdx : x.dataVenda with
    | none => rw [hdx] at hx'; exact absurd hx' hax
    | some d => simp [hdx]
  · have hk : "NaT" ∈ rows.filterMap (fun x => some (mesLabel x.dataVenda)) :=
      List.mem_filterMap.mpr ⟨r, hr, by simp [hd, mesLabel]⟩
    have h := mem_groupbySum_of_key strLe
      (fun x => some (mesLabel x.dataVenda)) rows "NaT" hk
    have heq : rows.filter
        (fun x => decide ((some (mesLabel x.dataVenda) : Option String) = some "NaT"))
        = rows.filter (fun x => decide (mesLabel x.dataVenda = "NaT")) := by
      apply List.filter_congr
      intro x _
      exact decide_eq_decide.mpr (by simp)
    rw [heq] at h
    exact h
  · exact List.mem_filter.mpr ⟨hr, by simp [hd, mesLabel]⟩

/-- Witness for C7 at a concrete input: on `[exRowA, exRowC]` with the
null-date row `exRowC`. -/
theorem nullDates_aggregation_witness :
    (exRowC ∈ [exRowA, exRowC] ∧ exRowC.dataVenda = none ∧
     ∀ x ∈ [exRowA, exRowC], x.ano = x.dataVenda.map SaleDate.year) ∧
    (vendasPorAno ([exRowA, exRowC].filter (fun x => decide (x.dataVenda ≠ none)))
        = vendasPorAno [exRowA, exRowC] ∧
     mesLabel exRowC.dataVenda = "NaT" ∧
     ("NaT", sumValor ([exRowA, exRowC].filter
        (fun x => decide (mesLabel x.dataVenda = "NaT"))))
        ∈ vendasMes [exRowA, exRowC] ∧
     exRowC ∈ [exRowA, exRowC].filter (fun x => decide (mesLabel x.dataVenda = "NaT"))) :=
  ⟨⟨by decide, by decide, by decide⟩,
   nullDates_aggregation [exRowA, exRowC] exRowC (by decide) (by decide) (by decide)⟩

/-! ## Brand cascade (C6) -/

/-- C6 counterexample: with the one-row table `[exRowM]` — whose single
row has product type `"A"` but a null brand — the type `"A"` is an
offered (non-null, present) type, yet selecting it yields an **empty**
brand candidate list, contradicting the claimed non-emptiness. -/
theorem brandCascade_nonempty_cex :
    "A" ∈ (mkFiltros [exRowM]).tipo ∧
    atualizarMarcas [exRowM] (some "A") = [] := by
  decide

/-- C6 (amended): the brand candidate list is empty when no product
type is selected; when a (truthy) type is selected it consists exactly
of the distinct non-null brands among fact-table rows of that type, in
sorted order without duplicates — in particular it is a subset of the
brands associated with the type, but it is empty when no matching row
has a non-null brand. -/
theorem brandCascade_exact (dfT : List FactRow) :
    atualizarMarcas dfT none = [] ∧
    ∀ t : String, t ≠ "" →
      ((∀ m, m ∈ atualizarMarcas dfT (some t) ↔
          ∃ r ∈ dfT, r.tipoProduto = some t ∧ r.marca = some m) ∧
       (atualizarMarcas dfT (some t)).Pairwise (fun a b => strLe a b = true) ∧
       (atualizarMarcas dfT (some t)).Nodup) := by
  refine ⟨rfl, ?_⟩
  intro t ht
  have htr : truthyStr (some t) = true := by simp [truthyStr, ht]
  refine ⟨?_, ?_, ?_⟩
  · intro m
    rw [atualizarMarcas, if_pos htr, mem_sortR, mem_dedupFirst, List.mem_filterMap]
    constructor
    · rintro ⟨r, hrf, hm⟩
      obtain ⟨hrd, hrt⟩ := List.mem_filter.mp hrf
      exact ⟨r, hrd, of_decide_eq_true hrt, hm⟩
    · rintro ⟨r, hrd, hrt, hm⟩
      exact ⟨r, List.mem_filter.mpr ⟨hrd, decide_eq_true hrt⟩, hm⟩
  · rw [atualizarMarcas, if_pos htr]
    exact pairwise_sortR strLe strLe_total strLe_trans _
  · rw [atualizarMarcas, if_pos htr]
    exact ((perm_sortR strLe _).nodup_iff).mpr (nodup_dedupFirst _)

/-- Witness for C6 at a concrete input: selecting type `"Shoes"` over
`[exRowA, exRowM]` gives the candidate list characterised by the
theorem (concretely `["X"]`). -/
theorem brandCascade_exact_witness :
    (("Shoes" : String) ≠ "") ∧
    ((∀ m, m ∈ atualizarMarcas [exRowA, exRowM] (some "Shoes") ↔
        ∃ r ∈ [exRowA, exRowM], r.tipoProduto = some "Shoes" ∧ r.marca = some m) ∧
     (atualizarMarcas [exRowA, exRowM] (some "Shoes")).Pairwise
        (fun a b => strLe a b = true) ∧
     (atualizarMarcas [exRowA, exRowM] (some "Shoes")).Nodup) :=
  ⟨by decide, (brandCascade_exact [exRowA, exRowM]).2 "Shoes" (by decide)⟩

/-! ## Joiner lemmas (C8) -/

theorem leftLookup_ne_nil (key : ρ → Int) (k : Int) (refs : List ρ) :
    leftLookup key k refs ≠ [] := by
  unfold leftLookup
  cases hf : refs.filter (fun x => decide (key x = k)) with
  | nil => simp
  | cons a l => simp

theorem leftLookup_mem_some (key : ρ → Int) (k : Int) (refs : List ρ) (x : ρ)
    (h : some x ∈ leftLookup key k refs) : x ∈ refs ∧ key x = k := by
  unfold leftLookup at h
  cases hf : refs.filter (fun y => decide (key y = k)) with
  | nil =>
    rw [hf] at h
    simp at h
  | cons a l =>
    rw [hf] at h
    obtain ⟨y, hy, he⟩ := List.mem_map.mp h
    obtain rfl : y = x := Option.some_injective _ he
    have hy' : y ∈ refs.filter (fun z => decide (key z = k)) := hf ▸ hy
    obtain ⟨hmem, hkey⟩ := List.mem_filter.mp hy'
    exact ⟨hmem, of_decide_eq_true hkey⟩

theorem leftLookup_some_mem (key : ρ → Int) (k : Int) (refs : List ρ) (x : ρ)
    (hx : x ∈ refs) (hk : key x = k) : some x ∈ leftLookup key k refs := by
  unfold leftLookup
  have hmem : x ∈ refs.filter (fun y => decide (key y = k)) :=
    List.mem_filter.mpr ⟨hx, decide_eq_true hk⟩
  cases hf : refs.filter (fun y => decide (key y = k)) with
  | nil =>
    rw [hf] at hmem
    simp at hmem
  | cons a l =>
    exact List.mem_map_of_mem some (hf ▸ hmem)

/-- C8: the Joiner (i) retains every sales row — for each sales row
some fact row carries exactly its six sales columns; (ii) fills the
reference columns of a fact row with nulls whenever no reference row
matches the corresponding key; and (iii) derives `Ano` as the year of
the (possibly null) sale date and `Valor da Venda` as the
null-propagating product of quantity and unit price. -/
theorem joiner_retention_nulls (vendas : List Venda) (clientes : List Cliente)
    (produtos : List Produto) (lojas : List Loja) :
    (∀ v ∈ vendas, ∃ fr ∈ dfTotal vendas clientes produtos lojas,
        fr.dataVenda = v.dataVenda ∧ fr.ordemCompra = v.ordemCompra ∧
        fr.idProduto = v.idProduto ∧ fr.idCliente = v.idCliente ∧
        fr.qtdVendida = v.qtdVendida ∧ fr.idLoja = v.idLoja) ∧
    (∀ fr ∈ dfTotal vendas clientes produtos lojas,
        ((∀ c ∈ clientes, c.idCliente ≠ fr.idCliente) → fr.nomeCompleto = none) ∧
        ((∀ p ∈ produtos, p.idProduto ≠ fr.idProduto) →
            fr.produto = none ∧ fr.tipoProduto = none ∧ fr.marca = none ∧
            fr.precoUnitario = none) ∧
        ((∀ l ∈ lojas, l.idLoja ≠ fr.idLoja) → fr.nomeLoja = none) ∧
        fr.ano = fr.dataVenda.map SaleDate.year ∧
        fr.valorVenda = mulOpt fr.qtdVendida fr.precoUnitario) := by
  constructor
  · intro v hv
    obtain ⟨c0, hc0⟩ := List.exists_mem_of_ne_nil _
      (leftLookup_ne_nil Cliente.idCliente v.idCliente clientes)
    obtain ⟨p0, hp0⟩ := List.exists_mem_of_ne_nil _
      (leftLookup_ne_nil Produto.idProduto v.idProduto produtos)
    obtain ⟨l0, hl0⟩ := List.exists_mem_of_ne_nil _
      (leftLookup_ne_nil Loja.idLoja v.idLoja lojas)
    refine ⟨buildFact v c0 p0 l0, ?_, rfl, rfl, rfl, rfl, rfl, rfl⟩
    exact List.mem_flatMap.mpr ⟨v, hv, List.mem_flatMap.mpr ⟨c0, hc0,
      List.mem_flatMap.mpr ⟨p0, hp0, List.mem_map_of_mem _ hl0⟩⟩⟩
  · intro fr hfr
    obtain ⟨v, hv, h1⟩ := List.mem_flatMap.mp hfr
    obtain ⟨c, hc, h2⟩ := List.mem_flatMap.mp h1
    obtain ⟨p, hp, h3⟩ := List.mem_flatMap.mp h2
    obtain ⟨l, hl, h4⟩ := List.mem_map.mp h3
    subst h4
    refine ⟨?_, ?_, ?_, rfl, rfl⟩
    · intro hnone
      cases c with
      | none => rfl
      | some c' =>
        obtain ⟨hmem, hkey⟩ := leftLookup_mem_some _ _ _ _ hc
        exact absurd hkey (hnone c' hmem)
    · intro hnone
      cases p with
      | none => exact ⟨rfl, rfl, rfl, rfl⟩
      | some p' =>
        obtain ⟨hmem, hkey⟩ := leftLookup_mem_some _ _ _ _ hp
        exact absurd hkey (hnone p' hmem)
    · intro hnone
      cases l with
      | none => rfl
      | some l' =>
        obtain ⟨hmem, hkey⟩ := leftLookup_mem_some _ _ _ _ hl
        exact absurd hkey (hnone l' hmem)

/-- Witness for C8 at a concrete input: one sales row, no customers,
one matching product, no stores. -/
theorem joiner_retention_nulls_witness :
    (∀ v ∈ [exVenda], ∃ fr ∈ dfTotal [exVenda] [] [exProduto] [],
        fr.dataVenda = v.dataVenda ∧ fr.ordemCompra = v.ordemCompra ∧
        fr.idProduto = v.idProduto ∧ fr.idCliente = v.idCliente ∧
        fr.qtdVendida = v.qtdVendida ∧ fr.idLoja = v.idLoja) ∧
    (∀ fr ∈ dfTotal [exVenda] [] [exProduto] [],
        ((∀ c ∈ ([] : List Cliente), c.idCliente ≠ fr.idCliente) →
            fr.nomeCompleto = none) ∧
        ((∀ p ∈ [exProduto], p.idProduto ≠ fr.idProduto) →
            fr.produto = none ∧ fr.tipoProduto = none ∧ fr.marca = none ∧
            fr.precoUnitario = none) ∧
        ((∀ l ∈ ([] : List Loja), l.idLoja ≠ fr.idLoja) → fr.nomeLoja = none) ∧
        fr.ano = fr.dataVenda.map SaleDate.year ∧
        fr.valorVenda = mulOpt fr.qtdVendida fr.precoUnitario) :=
  joiner_retention_nulls [exVenda] [] [exProduto] []

/-! ## Missing-name handling (C10) -/

/-- C10: if a raw customer row is missing its first or last name, the
Normalizer still derives a non-null full name — the string conversion
renders the missing part as `"nan"`, joined with a single space — so
the name survives `dropna().unique()`: it appears among the customer
filter candidates (raw and sorted, as offered by the dropdown) and
among the group keys formed by the top-10-customers aggregator over
the fact table, provided some sales row matches the customer's key. -/
theorem nan_names_included (c : ClienteRaw)
    (hnull : c.primeiroNome = none ∨ c.sobrenome = none)
    (vendas : List Venda) (clientes : List Cliente)
    (produtos : List Produto) (lojas : List Loja)
    (hc : normalizeCliente c ∈ clientes)
    (v : Venda) (hv : v ∈ vendas) (hk : v.idCliente = c.idCliente) :
    ∃ s : String,
      (normalizeCliente c).nomeCompleto = some s ∧
      (∃ pre post, s = pre ++ "nan" ++ post) ∧
      s ∈ (mkFiltros (dfTotal vendas clientes produtos lojas)).cliente ∧
      s ∈ sortR strLe (mkFiltros (dfTotal vendas clientes produtos lojas)).cliente ∧
      s ∈ (groupbySum strLe FactRow.nomeCompleto
            (dfTotal vendas clientes produtos lojas)).map Prod.fst := by
  refine ⟨nomeCompletoDerived c.primeiroNome c.sobrenome, rfl, ?_, ?_, ?_, ?_⟩
  · rcases hnull with h | h
    · refine ⟨"", " " ++ pyStr c.sobrenome, ?_⟩
      rw [nomeCompletoDerived, h]
      rw [String.empty_append, String.append_assoc]
      rfl
    · refine ⟨pyStr c.primeiroNome ++ " ", "", ?_⟩
      rw [nomeCompletoDerived, h, String.append_empty]
      rfl
  all_goals {
    obtain ⟨p0, hp0⟩ := List.exists_mem_of_ne_nil _
      (leftLookup_ne_nil Produto.idProduto v.idProduto produtos)
    obtain ⟨l0, hl0⟩ := List.exists_mem_of_ne_nil _
      (leftLookup_ne_nil Loja.idLoja v.idLoja lojas)
    have hcm : some (normalizeCliente c) ∈
        leftLookup Cliente.idCliente v.idCliente clientes :=
      leftLookup_some_mem _ _ _ _ hc hk.symm
    have hmemFr : buildFact v (some (normalizeCliente c)) p0 l0
        ∈ dfTotal vendas clientes produtos lojas :=
      List.mem_flatMap.mpr ⟨v, hv, List.mem_flatMap.mpr ⟨some (normalizeCliente c), hcm,
        List.mem_flatMap.mpr ⟨p0, hp0, List.mem_map_of_mem _ hl0⟩⟩⟩
    have hfm : nomeCompletoDerived c.primeiroNome c.sobrenome
        ∈ (dfTotal vendas clientes produtos lojas).filterMap FactRow.nomeCompleto :=
      List.mem_filterMap.mpr ⟨buildFact v (some (normalizeCliente c)) p0 l0, hmemFr, rfl⟩
    first
    | exact (mem_dedupFirst _ _).mpr hfm
    | exact (mem_sortR _ _ _).mpr ((mem_dedupFirst _ _).mpr hfm)
    | · rw [groupbySum, List.map_map]
        exact List.mem_map.mpr
          ⟨_, (mem_sortR _ _ _).mpr ((mem_dedupFirst _ _).mpr hfm), rfl⟩
  }

/-- Witness for C10 at a concrete input: customer 7 "Maria ⟨missing⟩"
matched by `exVenda`. -/
theorem nan_names_included_witness :
    (exClienteRaw.primeiroNome = none ∨ exClienteRaw.sobrenome = none) ∧
    (∃ s : String,
      (normalizeCliente exClienteRaw).nomeCompleto = some s ∧
      (∃ pre post, s = pre ++ "nan" ++ post) ∧
      s ∈ (mkFiltros (dfTotal [exVenda] [normalizeCliente exClienteRaw]
            [exProduto] [])).cliente ∧
      s ∈ sortR strLe (mkFiltros (dfTotal [exVenda] [normalizeCliente exClienteRaw]
            [exProduto] [])).cliente ∧
      s ∈ (groupbySum strLe FactRow.nomeCompleto
            (dfTotal [exVenda] [normalizeCliente exClienteRaw]
              [exProduto] [])).map Prod.fst) :=
  ⟨.inr rfl,
   nan_names_included exClienteRaw (.inr rfl) [exVenda]
     [normalizeCliente exClienteRaw] [exProduto] []
     (List.mem_singleton.mpr rfl) exVenda (List.mem_singleton.mpr rfl) rfl⟩

/-! ## Layout (C1) -/

/-- C1 (evaluation of the served layout): the dashboard layout built at
lines 76-125 contains exactly the five claimed selection widgets (type
and brand single-select, product/store/customer multi-select) and the
six claimed charts — but the app object the module leaves bound to
`app`/`server` after lines 235-242, the one a WSGI host serves after
importing the module, has a layout containing **no** dropdowns and
**no** graphs, only the "Hello Dash" heading. -/
theorem finalApp_serves_hello_dash (f : Filtros) :
    ((layoutPrincipal f).filter isDropdown =
        [ .dropdown "filtro_tipo" false (sortR strLe f.tipo)
        , .dropdown "filtro_marca" false []
        , .dropdown "filtro_produto" true (sortR strLe f.produto)
        , .dropdown "filtro_loja" true (sortR strLe f.loja)
        , .dropdown "filtro_cliente" true (sortR strLe f.cliente) ] ∧
     (layoutPrincipal f).filter isGraph =
        [ .graph "grafico_ano", .graph "grafico_cliente"
        , .graph "grafico_produto", .graph "grafico_loja"
        , .graph "grafico_pizza_tipo", .graph "grafico_area_tempo" ]) ∧
    (layoutFinal.filter isDropdown = [] ∧ layoutFinal.filter isGraph = []) :=
  ⟨⟨rfl, rfl⟩, rfl, rfl⟩

/-! ## Heap lemmas and the no-mutation theorem (C9) -/

theorem alloc_mem_ne (h : Heap) (f : PFrame) (q : Nat) (hq : q ≠ h.next) :
    (h.alloc f).1.mem q = h.mem q := by
  simp [Heap.alloc, hq]

theorem store_mem_ne (h : Heap) (r : Nat) (f : PFrame) (q : Nat) (hq : q ≠ r) :
    (h.store r f).mem q = h.mem q := by
  simp [Heap.store, hq]

theorem filterStep_inv (h : Heap) (d : Nat) (a : Bool) (p : FactRow → Bool)
    (base : Nat) (hb : base < h.next) (hd : d ≠ base) :
    (filterStep h d a p).1.mem base = h.mem base ∧
    base < (filterStep h d a p).1.next ∧
    (filterStep h d a p).2 ≠ base := by
  cases a with
  | false => exact ⟨rfl, hb, hd⟩
  | true =>
    refine ⟨alloc_mem_ne h _ base (by omega), ?_, ?_⟩
    · show base < h.next + 1
      omega
    · show h.next ≠ base
      omega

theorem runFilters_inv (base : Nat) (l : List (Bool × (FactRow → Bool))) :
    ∀ (h : Heap) (d : Nat), base < h.next → d ≠ base →
      (runFilters h d l).1.mem base = h.mem base ∧
      base < (runFilters h d l).1.next ∧
      (runFilters h d l).2 ≠ base := by
  induction l with
  | nil => exact fun h d hb hd => ⟨rfl, hb, hd⟩
  | cons x rest ih =>
    intro h d hb hd
    obtain ⟨a, p⟩ := x
    obtain ⟨m1, n1, r1⟩ := filterStep_inv h d a p base hb hd
    obtain ⟨m2, n2, r2⟩ := ih (filterStep h d a p).1 (filterStep h d a p).2 n1 r1
    exact ⟨m2.trans m1, n2, r2⟩

theorem finishHeap_mem (h : Heap) (d q : Nat) (hq : q ≠ d) :
    (finishHeap h d).mem q = h.mem q := by
  unfold finishHeap
  rw [store_mem_ne _ _ _ _ hq, store_mem_ne _ _ _ _ hq]

theorem finishHeap_next (h : Heap) (d : Nat) : (finishHeap h d).next = h.next :=
  rfl

theorem runCallback_inv (h : Heap) (base : Nat) (s : Selection)
    (hb : base < h.next) :
    (runCallback h base s).1.mem base = h.mem base ∧
    base < (runCallback h base s).1.next := by
  have hAn : base < (h.alloc (h.mem base)).1.next := by
    show base < h.next + 1
    omega
  have hAr : (h.alloc (h.mem base)).2 ≠ base := by
    show h.next ≠ base
    omega
  have hAm : (h.alloc (h.mem base)).1.mem base = h.mem base :=
    alloc_mem_ne h _ base (by omega)
  obtain ⟨m, n, rne⟩ := runFilters_inv base (cbFilters s)
    (h.alloc (h.mem base)).1 (h.alloc (h.mem base)).2 hAn hAr
  constructor
  · show (finishHeap _ _).mem base = h.mem base
    rw [finishHeap_mem _ _ _ (Ne.symm rne), m, hAm]
  · show base < (finishHeap _ _).next
    rw [finishHeap_next]
    exact n

theorem runMany_inv (base : Nat) (sels : List Selection) :
    ∀ h : Heap, base < h.next →
      (runMany h base sels).mem base = h.mem base ∧
      base < (runMany h base sels).next := by
  induction sels with
  | nil => exact fun h hb => ⟨rfl, hb⟩
  | cons s ss ih =>
    intro h hb
    obtain ⟨m1, n1⟩ := runCallback_inv h base s hb
    obtain ⟨m2, n2⟩ := ih (runCallback h base s).1 n1
    exact ⟨m2.trans m1, n2⟩

/-- C9: the callback pass never mutates the heap cell holding the base
fact table `df_total` — it works on a fresh copy, every active filter
allocates a new frame, and the two in-place column writes (date
re-coercion and the `Mês` column) land on that copy.  Consequently any
sequence of callback invocations with arbitrary selections leaves the
base table, rows and columns alike, exactly as it was. -/
theorem callback_preserves_base (h : Heap) (base : Nat) (hb : base < h.next) :
    (∀ s : Selection,
        (runCallback h base s).1.mem base = h.mem base ∧
        base < (runCallback h base s).1.next) ∧
    (∀ sels : List Selection, (runMany h base sels).mem base = h.mem base) :=
  ⟨fun s => runCallback_inv h base s hb,
   fun sels => (runMany_inv base sels h hb).1⟩

/-- Witness for C9 at a concrete heap: one cell (address 0) holding a
one-row base table, `next = 1`. -/
theorem callback_preserves_base_witness :
    (0 < (Heap.mk (fun _ => ⟨[exRowA], false⟩) 1).next) ∧
    ((∀ s : Selection,
        (runCallback (Heap.mk (fun _ => ⟨[exRowA], false⟩) 1) 0 s).1.mem 0
          = (Heap.mk (fun _ => ⟨[exRowA], false⟩) 1).mem 0 ∧
        0 < (runCallback (Heap.mk (fun _ => ⟨[exRowA], false⟩) 1) 0 s).1.next) ∧
     (∀ sels : List Selection,
        (runMany (Heap.mk (fun _ => ⟨[exRowA], false⟩) 1) 0 sels).mem 0
          = (Heap.mk (fun _ => ⟨[exRowA], false⟩) 1).mem 0)) :=
  ⟨Nat.zero_lt_one,
   callback_preserves_base (Heap.mk (fun _ => ⟨[exRowA], false⟩) 1) 0 Nat.zero_lt_one⟩

end DashVendas
